import Mathlib

/-!
Verification development for the adaptive web retrieval & extraction pipeline
(`src/index.ts`, `src/scraper/webScraper.ts`, `src/rules/ruleEngine.ts`,
`src/headers/headerManager.ts`).

The TypeScript code is shallowly embedded: pure logic is translated line by
line into Lean functions; the external capabilities (the HTTP client, the
browser automation engine, the `cheerio` DOM, the WHATWG `URL` resolver and
the system clock) are passed in as explicit parameters, so every function
here is total and executable.  Stateful parts (the header store, the rule
registry, the shared browser handle) are modelled by explicit state passing.
-/

namespace WebScraperMCP

/-! ## Text utilities

`WebScraper.cleanText` and `RuleEngine.cleanText` are the same three-stage
JavaScript pipeline:
`text.replace(/\s+/g, " ").replace(/\n\s*\n/g, "\n\n").trim()`.
We model JavaScript `\s` by `isWS`, the first global replace by `collapseWS`,
the second by `collapseBlank` (greedy match of `\n\s*\n`, replacement not
rescanned), and `trim` by dropping whitespace at both ends. -/

/-- Model of the JavaScript `\s` character class (whitespace incl. NBSP,
unicode spaces, line/paragraph separators and BOM). -/
def isWS (c : Char) : Bool :=
  c = ' ' || c = '\t' || c = '\n' || c = '\r' || c = '\x0b' || c = '\x0c' ||
  c = Char.ofNat 0xa0 || c = Char.ofNat 0x1680 ||
  (0x2000 ≤ c.toNat && c.toNat ≤ 0x200a) ||
  c = Char.ofNat 0x2028 || c = Char.ofNat 0x2029 || c = Char.ofNat 0x202f ||
  c = Char.ofNat 0x205f || c = Char.ofNat 0x3000 || c = Char.ofNat 0xfeff

/-- Collapse every maximal run of `p`-characters to a single space
(parametric core of the `\s+` replace). -/
def collapseRuns (p : Char → Bool) : List Char → List Char
  | [] => []
  | c :: rest =>
    if p c then ' ' :: collapseRuns p (rest.dropWhile p)
    else c :: collapseRuns p rest
termination_by l => l.length
decreasing_by
  · exact Nat.lt_succ_of_le (rest.dropWhile_sublist p).length_le
  · exact Nat.lt_succ_self _

/-- `text.replace(/\s+/g, " ")`: every maximal run of whitespace becomes a
single space. -/
def collapseWS : List Char → List Char :=
  collapseRuns isWS

/-- Replace `\n<run>\n` blank-line groups by exactly `"\n\n"` (parametric
core of the `\n\s*\n` replace), with JavaScript left-to-right global
semantics: at a `\n`, the greedy `\s*` backtracks to the last `\n` inside
the following contiguous whitespace run; the replacement is not rescanned. -/
def collapseBlankRuns (p : Char → Bool) : List Char → List Char
  | [] => []
  | c :: rest =>
    if c = '\n' then
      let run := rest.takeWhile p
      if run.contains '\n' then
        let k := run.length - (run.reverse.takeWhile (fun x => x ≠ '\n')).length
        '\n' :: '\n' :: collapseBlankRuns p (rest.drop k)
      else c :: collapseBlankRuns p rest
    else c :: collapseBlankRuns p rest
termination_by l => l.length
decreasing_by
  · exact Nat.lt_succ_of_le (by simp [List.length_drop])
  · exact Nat.lt_succ_self _
  · exact Nat.lt_succ_self _

/-- `text.replace(/\n\s*\n/g, "\n\n")`. -/
def collapseBlank : List Char → List Char :=
  collapseBlankRuns isWS

/-- Drop trailing whitespace (the right half of `String.prototype.trim`). -/
def trimRight : List Char → List Char
  | [] => []
  | c :: rest =>
    match trimRight rest with
    | [] => if isWS c then [] else [c]
    | r => c :: r

/-- `String.prototype.trim`: whitespace removed from both ends. -/
def trimChars (l : List Char) : List Char :=
  trimRight (l.dropWhile isWS)

/-- `s.trim()` on strings. -/
def trimStr (s : String) : String :=
  ⟨trimChars s.data⟩

/-- `WebScraper.cleanText` / `RuleEngine.cleanText` (identical bodies in the
two classes): collapse whitespace runs, collapse blank lines, trim. -/
def cleanText (text : String) : String :=
  ⟨trimChars (collapseBlank (collapseWS text.data))⟩

/-- Model of JavaScript `String.prototype.includes` (substring test). -/
def containsStr (s sub : String) : Bool :=
  decide (sub.data <:+: s.data)

/-- Model of JavaScript `String.prototype.startsWith`. -/
def strStartsWith (s pre : String) : Bool :=
  decide (pre.data <+: s.data)

/-- Model of JavaScript `String.prototype.toLowerCase` (ASCII letters). -/
def strToLower (s : String) : String :=
  ⟨s.data.map Char.toLower⟩

/-- Drop the first `n` characters of a string. -/
def strDrop (s : String) (n : Nat) : String :=
  ⟨s.data.drop n⟩

/-- Worker for `dedupFirst`: keep elements not yet seen. -/
def dedupFirstAux (seen : List String) : List String → List String
  | [] => []
  | x :: xs =>
    if x ∈ seen then dedupFirstAux seen xs
    else x :: dedupFirstAux (x :: seen) xs

/-- Model of `[...new Set(l)]`: deduplication keeping the first occurrence of
each element, preserving order. -/
def dedupFirst (l : List String) : List String :=
  dedupFirstAux [] l

/-! ## Data model

`ScrapedContent` from `webScraper.ts`.  JavaScript objects with string keys
are modelled as insertion-ordered association lists; `metadata` values are
either plain strings (meta tags) or, after rule application, the reserved
`customData` mapping / `appliedRuleSet` name. -/

/-- A rule `custom` field value: one matched element gives a scalar string,
several give an ordered list of strings. -/
inductive CustomVal where
  | scalar : String → CustomVal
  | many : List String → CustomVal
deriving DecidableEq, Repr

/-- A `metadata` value. -/
inductive MetaVal where
  | str : String → MetaVal
  | customData : List (String × CustomVal) → MetaVal
deriving DecidableEq, Repr

/-- JavaScript object property read: first entry with the given key. -/
def objGet {β : Type} (o : List (String × β)) (k : String) : Option β :=
  (o.find? (fun p => p.1 == k)).map (fun p => p.2)

/-- JavaScript object property write / `Map.set`: replace the value in place
if the key exists, otherwise append the new entry. -/
def objSet {β : Type} (o : List (String × β)) (k : String) (v : β) :
    List (String × β) :=
  if o.any (fun p => p.1 == k) then
    o.map (fun p => if p.1 == k then (k, v) else p)
  else o ++ [(k, v)]

/-- JavaScript object spread `\x7b...older, ...newer\x7d`: keys of `older` keep
their position but take `newer`'s value when overridden; keys only in `newer`
are appended in order. -/
def objMerge {β : Type} (older newer : List (String × β)) :
    List (String × β) :=
  older.map (fun p =>
    match objGet newer p.1 with
    | some v => (p.1, v)
    | none => p)
  ++ newer.filter (fun q => (objGet older q.1).isNone)

/-- `ScrapedContent` (webScraper.ts): the canonical content record. -/
structure ScrapedContent where
  url : String
  title : String
  content : String
  html : String
  links : List String
  images : List String
  metadata : List (String × MetaVal)
  timestamp : String
deriving DecidableEq, Repr

/-! ## Content extractor (`WebScraper.extractContent`)

The cheerio DOM is external; it is abstracted as a `Doc` type plus the exact
query operations the extractor performs.  Removal operations return the
mutated document, which the source code threads through the subsequent
queries (noise stripped inside a candidate container stays stripped for the
link/image/meta scans).  `new URL(ref, base).href` is abstracted as a
`resolve` function returning `none` exactly when the constructor throws. -/

/-- The cheerio operations used by `extractContent`, over an abstract
document type. -/
structure ExtractOps (Doc : Type) where
  /-- `cheerio.load(html)`. -/
  load : String → Doc
  /-- `$(sel).length`. -/
  count : Doc → String → Nat
  /-- `$(sel).text()` (concatenated text of all matches). -/
  textOf : Doc → String → String
  /-- `$(sel).first().text()`. -/
  firstText : Doc → String → String
  /-- `$(sel).find("script, style, nav, header, footer, aside, .actions, .buttons").remove()`:
  the document after stripping noise descendants of the matches of `sel`. -/
  removeNoiseIn : Doc → String → Doc
  /-- `$("script, style, nav, header, footer, aside").remove()` on the whole
  document (the last-resort fallback). -/
  removeGlobalNoise : Doc → Doc
  /-- `$("a[href]")`: the `href` attribute of each matched element, in order. -/
  hrefs : Doc → List (Option String)
  /-- `$("img[src]")`: the `src` attribute of each matched element, in order. -/
  srcs : Doc → List (Option String)
  /-- `$("meta")`: per element, (`attr("name")`, `attr("property")`,
  `attr("content")`). -/
  metas : Doc → List (Option String × Option String × Option String)
  /-- `new Date().toISOString()` (the ambient clock; opaque to the logic). -/
  now : String

/-- JavaScript `a || b` on strings: the empty string is falsy. -/
def jsOr (a b : String) : String :=
  if a = "" then b else a

/-- JavaScript `a || b` where `a` may be `undefined` or a string. -/
def jsOrOpt (a b : Option String) : Option String :=
  match a with
  | some s => if s = "" then b else some s
  | none => b

/-- The prioritized container selector list of `extractContent`. -/
def contentSelectors : List String :=
  ["main", "article", ".content", ".post-content", ".entry-content",
   "#content", ".main-content", "body"]

/-- The `for (const selector of contentSelectors)` loop: on a match, strip
noise inside it, take the trimmed text, and stop once it exceeds 100
characters; the mutated document and the last assigned text are threaded. -/
def contentLoop {Doc : Type} (ops : ExtractOps Doc) :
    List String → Doc → String → Doc × String
  | [], d, content => (d, content)
  | sel :: rest, d, content =>
    if 0 < ops.count d sel then
      let d' := ops.removeNoiseIn d sel
      let c := trimStr (ops.textOf d' sel)
      if 100 < c.length then (d', c)
      else contentLoop ops rest d' c
    else contentLoop ops rest d content

/-- Resolve a list of raw attribute values against the base address:
JavaScript-falsy values are skipped, failed resolutions are silently
dropped (`try \x7b links.push(new URL(href, url).href) \x7d catch \x7b\x7d`). -/
def resolveRefs (resolve : String → String → Option String) (base : String)
    (refs : List (Option String)) : List String :=
  refs.filterMap (fun r =>
    match r with
    | some h => if h = "" then none else resolve h base
    | none => none)

/-- The meta-tag scan: `name = attr("name") || attr("property")`, entry kept
only when both `name` and `content` are truthy; stored by object assignment. -/
def collectMetas (entries : List (Option String × Option String × Option String))
    (md : List (String × MetaVal)) : List (String × MetaVal) :=
  entries.foldl (fun acc t =>
    match jsOrOpt t.1 t.2.1, t.2.2 with
    | some n, some c =>
      if n ≠ "" ∧ c ≠ "" then objSet acc n (MetaVal.str c) else acc
    | _, _ => acc) md

/-- The container loop followed by its `if (!content)` whole-document
fallback: the final (possibly mutated) document and the chosen body text. -/
def bodyResolution {Doc : Type} (ops : ExtractOps Doc) (d : Doc) :
    Doc × String :=
  let s1 := contentLoop ops contentSelectors d ""
  if s1.2 = "" then
    let dG := ops.removeGlobalNoise s1.1
    (dG, trimStr (ops.textOf dG "body"))
  else s1

/-- `WebScraper.extractContent($, url, html)`: title resolution, the content
container loop with its body fallback, link/image resolution with
deduplication, and the meta scan. -/
def extractContent {Doc : Type} (ops : ExtractOps Doc)
    (resolve : String → String → Option String) (d : Doc)
    (url html : String) : ScrapedContent :=
  let title :=
    jsOr (trimStr (ops.textOf d "title"))
      (jsOr (trimStr (ops.firstText d "h1")) "无标题")
  let s2 := bodyResolution ops d
  { url := url
    title := title
    content := cleanText s2.2
    html := html
    links := dedupFirst (resolveRefs resolve url (ops.hrefs s2.1))
    images := dedupFirst (resolveRefs resolve url (ops.srcs s2.1))
    metadata := collectMetas (ops.metas s2.1) []
    timestamp := ops.now }

/-! ## Two-tier scrape strategy (`WebScraper.scrape`)

The network outcomes are external: the axios GET either yields the response
body (already coerced to a string, as the source does for non-string
payloads) or a failure message; the puppeteer navigation either yields the
rendered markup or a failure message.  The lifecycle of the shared browser
is modelled separately below for the session-invariant claim. -/

/-- `WebScraper.scrapeWithAxios`: on transport failure the error is rethrown
wrapped as `Axios爬取失败: ...`; on success the body is parsed and passed to
the extractor. -/
def scrapeWithAxios {Doc : Type} (ops : ExtractOps Doc)
    (resolve : String → String → Option String) (url : String)
    (fetchOutcome : Except String String) : Except String ScrapedContent :=
  match fetchOutcome with
  | .error e => .error ("Axios爬取失败: " ++ e)
  | .ok htmlContent => .ok (extractContent ops resolve (ops.load htmlContent) url htmlContent)

/-- `WebScraper.scrapeWithPuppeteer` (result view): on any failure the error
is rethrown wrapped as `Puppeteer爬取失败: ...`; on success the rendered
markup is parsed and passed to the extractor. -/
def scrapeWithPuppeteer {Doc : Type} (ops : ExtractOps Doc)
    (resolve : String → String → Option String) (url : String)
    (renderOutcome : Except String String) : Except String ScrapedContent :=
  match renderOutcome with
  | .error e => .error ("Puppeteer爬取失败: " ++ e)
  | .ok html => .ok (extractContent ops resolve (ops.load html) url html)

/-- The fixed JS-dependency keyword list of `WebScraper.scrape`. -/
def jsRequiredKeywords : List String :=
  ["您需要允许该网站执行 JavaScript",
   "enable JavaScript",
   "requires JavaScript",
   "not support a browser that has JavaScript disabled",
   "Please enable JavaScript"]

/-- The JS-dependency heuristic: case-insensitive keyword scan over the raw
markup (`staticContent.html.toLowerCase().includes(keyword.toLowerCase())`). -/
def contentIsJSReliant (html : String) : Bool :=
  jsRequiredKeywords.any (fun keyword =>
    containsStr (strToLower html) (strToLower keyword))

/-- `WebScraper.scrape`: data URLs and forced mode go straight to the render
tier; otherwise try the lightweight fetch, escalate on the heuristic, and on
lightweight failure fall back to the render tier (the lightweight failure
message is only logged, not rethrown). -/
def scrape {Doc : Type} (ops : ExtractOps Doc)
    (resolve : String → String → Option String) (url : String)
    (usePuppeteer : Bool) (fetchOutcome renderOutcome : Except String String) :
    Except String ScrapedContent :=
  if strStartsWith url "data:" then
    scrapeWithPuppeteer ops resolve url renderOutcome
  else if usePuppeteer then
    scrapeWithPuppeteer ops resolve url renderOutcome
  else
    match scrapeWithAxios ops resolve url fetchOutcome with
    | .ok staticContent =>
      if contentIsJSReliant staticContent.html then
        scrapeWithPuppeteer ops resolve url renderOutcome
      else .ok staticContent
    | .error _ => scrapeWithPuppeteer ops resolve url renderOutcome

/-! ## Rule engine (`ruleEngine.ts`) -/

/-- `ExtractionRule`: optional CSS selector expressions per output field. -/
structure ExtractionRule where
  title : Option String := none
  content : Option String := none
  links : Option String := none
  images : Option String := none
  exclude : Option (List String) := none
  custom : Option (List (String × String)) := none
deriving DecidableEq, Repr

/-- `RuleSet`: a named rule with optional description. -/
structure RuleSet where
  name : String
  rules : ExtractionRule
  description : Option String := none
deriving DecidableEq, Repr

/-- The rule registry (`private ruleSets: Map<string, RuleSet>`). -/
structure RuleEngineState where
  ruleSets : List (String × RuleSet)
deriving DecidableEq, Repr

/-- `RuleEngine.createRuleSet`: last write wins per name. -/
def createRuleSet (st : RuleEngineState) (name : String)
    (rules : ExtractionRule) (description : Option String) : RuleEngineState :=
  ⟨objSet st.ruleSets name ⟨name, rules, description⟩⟩

/-- `RuleEngine.getRuleSet`. -/
def getRuleSet (st : RuleEngineState) (name : String) : Option RuleSet :=
  objGet st.ruleSets name

/-- `RuleEngine.deleteRuleSet`. -/
def deleteRuleSet (st : RuleEngineState) (name : String) :
    RuleEngineState × Bool :=
  (⟨st.ruleSets.filter (fun p => p.1 ≠ name)⟩, st.ruleSets.any (fun p => p.1 == name))

/-- The cheerio operations used by `RuleEngine.applyRules`. -/
structure RuleOps (Doc : Type) where
  /-- `cheerio.load(html)`. -/
  load : String → Doc
  /-- `$(sel).remove()`: document with every match removed. -/
  removeAll : Doc → String → Doc
  /-- `$(sel)`: the text of each matched element, in document order. -/
  texts : Doc → String → List String
  /-- `$(sel)`: a named attribute of each matched element, in order. -/
  attrs : Doc → String → String → List (Option String)

/-- JavaScript truthiness for an optional selector (`if (rules.title)`
rejects both `undefined` and the empty string). -/
def strGiven (o : Option String) : Option String :=
  match o with
  | some s => if s = "" then none else some s
  | none => none

/-- The document after step 1 of `applyRules`: the stored markup re-parsed
and every `exclude` selector removed, in listed order. -/
def excludedDoc {Doc : Type} (ops : RuleOps Doc) (ruleSet : RuleSet)
    (html : String) : Doc :=
  (ruleSet.rules.exclude.getD []).foldl ops.removeAll (ops.load html)

/-- Steps 2-7 of `RuleEngine.applyRules`, after the registry lookup has
succeeded: override title / content / links / images / custom fields per
rule and build the new record. -/
def applyRulesFound {Doc : Type} (ops : RuleOps Doc)
    (resolve : String → String → Option String) (ruleSet : RuleSet)
    (ruleSetName : String) (content : ScrapedContent) : ScrapedContent :=
  let d := excludedDoc ops ruleSet content.html
  let title :=
    match strGiven ruleSet.rules.title with
    | none => content.title
    | some sel =>
      match ops.texts d sel with
      | [] => content.title
      | t :: _ => trimStr t
  let extractedContent :=
    match strGiven ruleSet.rules.content with
    | none => content.content
    | some sel =>
      match ops.texts d sel with
      | [] => content.content
      | ts => String.intercalate "\n\n" ts
  let links :=
    match strGiven ruleSet.rules.links with
    | none => content.links
    | some sel => resolveRefs resolve content.url (ops.attrs d sel "href")
  let images :=
    match strGiven ruleSet.rules.images with
    | none => content.images
    | some sel => resolveRefs resolve content.url (ops.attrs d sel "src")
  let customData :=
    match ruleSet.rules.custom with
    | none => []
    | some cs =>
      cs.foldl (fun acc kv =>
        match ops.texts d kv.2 with
        | [] => acc
        | [t] => objSet acc kv.1 (CustomVal.scalar (trimStr t))
        | ts => objSet acc kv.1 (CustomVal.many (ts.map trimStr))) []
  { content with
    title := title
    content := cleanText extractedContent
    links := dedupFirst links
    images := dedupFirst images
    metadata :=
      objSet (objSet content.metadata "customData" (MetaVal.customData customData))
        "appliedRuleSet" (MetaVal.str ruleSetName) }

/-- `RuleEngine.applyRules`: unknown names fail; otherwise the found rule
set is applied. -/
def applyRules {Doc : Type} (ops : RuleOps Doc)
    (resolve : String → String → Option String) (st : RuleEngineState)
    (ruleSetName : String) (content : ScrapedContent) :
    Except String ScrapedContent :=
  match objGet st.ruleSets ruleSetName with
  | none => .error ("规则集 \"" ++ ruleSetName ++ "\" 不存在")
  | some ruleSet => .ok (applyRulesFound ops resolve ruleSet ruleSetName content)

/-! ## Header manager (`headerManager.ts`) -/

/-- A header object. -/
abbrev Headers := List (String × String)

/-- The per-domain header store (`private domainHeaders: Map<...>`). -/
structure HeaderManagerState where
  domainHeaders : List (String × Headers)
deriving DecidableEq, Repr

/-- Strip a leading `http://` or `https://` (the `^https?:\/\/` replace). -/
def stripScheme (s : String) : String :=
  if strStartsWith s "http://" then strDrop s 7
  else if strStartsWith s "https://" then strDrop s 8
  else s

/-- `split(c)[0]`. -/
def beforeChar (c : Char) (s : String) : String :=
  ⟨s.data.takeWhile (fun x => x ≠ c)⟩

/-- `HeaderManager.normalizeDomain`: strip scheme, path, port; lower-case. -/
def normalizeDomain (domain : String) : String :=
  strToLower (beforeChar ':' (beforeChar '/' (stripScheme domain)))

/-- `HeaderManager.setHeaders`: merge into any previously stored headers for
the normalized domain, new values winning per key. -/
def setHeaders (st : HeaderManagerState) (domain : String)
    (headers : Headers) : HeaderManagerState :=
  let normalizedDomain := normalizeDomain domain
  let existingHeaders := (objGet st.domainHeaders normalizedDomain).getD []
  let mergedHeaders := objMerge existingHeaders headers
  ⟨objSet st.domainHeaders normalizedDomain mergedHeaders⟩

/-- `HeaderManager.getHeaders`: stored headers for the normalized domain, or
an empty object. -/
def getHeaders (st : HeaderManagerState) (domain : String) : Headers :=
  (objGet st.domainHeaders (normalizeDomain domain)).getD []

/-- The header-preparation step of `WebScraperMCPServer.handleScrapeUrl`:
for non-data URLs, one-time `customHeaders` are written into the process-wide
store for the URL's hostname before the fetch, and the request headers are
then read back from the store.  Returns the store state after the request
together with the headers handed to the fetch. -/
def prepareHeaders (st : HeaderManagerState) (url hostname : String)
    (customHeaders : Option Headers) : HeaderManagerState × Headers :=
  if strStartsWith url "data:" then (st, [])
  else
    let st' :=
      match customHeaders with
      | some h => setHeaders st hostname h
      | none => st
    (st', getHeaders st' hostname)

/-! ## Batch orchestrator (`WebScraperMCPServer.handleBatchScrape`)

Each address's unit of work wraps the whole fetch → rules → format pipeline
in a `try`/`catch`, so its promise always fulfills; `Promise.allSettled`
collects every unit in input order.  The per-unit steps are external
collaborators here, abstracted as `Except`-valued functions. -/

/-- One result entry of the batch (the fallback entry for a rejected
promise carries no `url` field). -/
structure BatchEntry where
  url : Option String
  success : Bool
  content : Option String
  error : Option String
deriving DecidableEq, Repr

/-- The per-address collaborators of a batch run. -/
structure BatchEnv where
  /-- `new URL(url).hostname` (throws on an invalid URL). -/
  hostnameOf : String → Except String String
  /-- `this.headerManager.getHeaders` against the current store. -/
  getHdrs : String → Headers
  /-- `this.scraper.scrape(url, \x7busePuppeteer, headers\x7d)`. -/
  scrapeFn : String → Headers → Except String ScrapedContent
  /-- `this.ruleEngine.applyRules(ruleSet, content)`. -/
  applyFn : String → ScrapedContent → Except String ScrapedContent
  /-- `this.exportManager.export(processedContent, format)`. -/
  exportFn : ScrapedContent → Except String String
  /-- The optional `ruleSet` argument shared by all items. -/
  ruleSet : Option String

/-- The body of one batch unit of work, up to the `catch`: header lookup,
scrape, optional rule application, formatting; any step may fail. -/
def unitPipeline (env : BatchEnv) (url : String) : Except String String := do
  let headers ←
    if strStartsWith url "data:" then pure ([] : Headers)
    else do
      let hostname ← env.hostnameOf url
      pure (env.getHdrs hostname)
  let content ← env.scrapeFn url headers
  let processedContent ←
    match env.ruleSet with
    | some rs => env.applyFn rs content
    | none => pure content
  env.exportFn processedContent

/-- One batch unit of work including its `catch`: every failure inside the
unit becomes a `success:false` entry instead of propagating. -/
def batchUnit (env : BatchEnv) (url : String) : BatchEntry :=
  match unitPipeline env url with
  | .ok text => { url := some url, success := true, content := some text, error := none }
  | .error e => { url := some url, success := false, content := none, error := some e }

/-- `handleBatchScrape`: map every URL to its (always-fulfilled) settled
promise, await them all, and convert any rejected promise into the fallback
error entry. -/
def handleBatchScrape (env : BatchEnv) (urls : List String) :
    List BatchEntry :=
  let settledResults : List (Except String BatchEntry) :=
    urls.map (fun url => Except.ok (batchUnit env url))
  settledResults.map (fun result =>
    match result with
    | .ok v => v
    | .error reason =>
      { url := none, success := false, content := none,
        error := some ("一个未知的爬取任务失败: " ++ reason) })

/-! ## Render-session lifecycle (`scrapeWithPuppeteer` state view, `close`)

The browser handle `this.browser` is the only cross-request shared mutable
resource.  A call's external outcomes (launch, page creation, navigation
and wait) are inputs; the step returns the new state, the call's result and
the ordered resource events it performed. -/

/-- Resource events of the browser session. -/
inductive Ev where
  | launch
  | newPage
  | closePage
  | closeBrowser
deriving DecidableEq, Repr

/-- The `WebScraper` instance state relevant to the session lifecycle. -/
structure ScraperState where
  /-- `this.browser` (identified by its launch index). -/
  browser : Option Nat
  /-- Number of successful `puppeteer.launch` calls so far. -/
  launches : Nat
deriving DecidableEq, Repr

/-- The state of a fresh `WebScraper`. -/
def initScraperState : ScraperState :=
  { browser := none, launches := 0 }

/-- One `scrapeWithPuppeteer` call: launch lazily when no browser exists,
open a page, navigate; the `finally` closes the page whenever one was
opened, and never touches the shared browser. -/
def puppeteerStep (st : ScraperState) (launchOutcome : Except String Unit)
    (newPageOutcome : Except String Unit) (navOutcome : Except String String) :
    ScraperState × Except String String × List Ev :=
  match st.browser with
  | none =>
    match launchOutcome with
    | .error m => (st, .error ("Puppeteer爬取失败: " ++ m), [])
    | .ok _ =>
      let st1 : ScraperState :=
        { browser := some st.launches, launches := st.launches + 1 }
      match newPageOutcome with
      | .error m => (st1, .error ("Puppeteer爬取失败: " ++ m), [Ev.launch])
      | .ok _ =>
        match navOutcome with
        | .error m =>
          (st1, .error ("Puppeteer爬取失败: " ++ m), [Ev.launch, Ev.newPage, Ev.closePage])
        | .ok html =>
          (st1, .ok html, [Ev.launch, Ev.newPage, Ev.closePage])
  | some _ =>
    match newPageOutcome with
    | .error m => (st, .error ("Puppeteer爬取失败: " ++ m), [])
    | .ok _ =>
      match navOutcome with
      | .error m => (st, .error ("Puppeteer爬取失败: " ++ m), [Ev.newPage, Ev.closePage])
      | .ok html => (st, .ok html, [Ev.newPage, Ev.closePage])

/-- `WebScraper.close`: closes the shared browser if any and nulls the
handle; the only operation that ever closes the session. -/
def closeStep (st : ScraperState) : ScraperState × List Ev :=
  match st.browser with
  | some _ => ({ st with browser := none }, [Ev.closeBrowser])
  | none => (st, [])

/-- The external outcomes consumed by one rendering call. -/
structure CallOutcome where
  launchOutcome : Except String Unit
  newPageOutcome : Except String Unit
  navOutcome : Except String String

/-- Run a sequence of rendering calls on one `WebScraper`, accumulating the
event trace. -/
def runCalls (st : ScraperState) : List CallOutcome → ScraperState × List Ev
  | [] => (st, [])
  | o :: rest =>
    let r := puppeteerStep st o.launchOutcome o.newPageOutcome o.navOutcome
    let r' := runCalls r.1 rest
    (r'.1, r.2.2 ++ r'.2)

/-! ## Auxiliary predicates and concrete instances

`headNotWS`/`wsOk` characterize the normal form produced by the whitespace
collapse; the `unit*` instances are concrete environments (an empty
document model and a pass-through URL resolver) used to evaluate the
embedding at specific inputs. -/

/-- The head, if any, is not whitespace. -/
def headNotWS : List Char → Bool
  | [] => true
  | c :: _ => !(isWS c)

/-- Normal form of whitespace-collapsed text: every whitespace character is
a single space not followed by further whitespace. -/
def wsOk : List Char → Bool
  | [] => true
  | c :: rest => (!(isWS c) || ((c == ' ') && headNotWS rest)) && wsOk rest

/-- A concrete document model: the empty document (no element matches any
selector). -/
def unitOps : ExtractOps Unit where
  load := fun _ => ()
  count := fun _ _ => 0
  textOf := fun _ _ => ""
  firstText := fun _ _ => ""
  removeNoiseIn := fun d _ => d
  removeGlobalNoise := fun d => d
  hrefs := fun _ => []
  srcs := fun _ => []
  metas := fun _ => []
  now := ""

/-- A concrete rule-engine document model: the empty document. -/
def unitRuleOps : RuleOps Unit where
  load := fun _ => ()
  removeAll := fun d _ => d
  texts := fun _ _ => []
  attrs := fun _ _ _ => []

/-- A concrete URL resolver: absolute `http(s)` references resolve to
themselves, everything else fails. -/
def unitResolve (ref : String) (_base : String) : Option String :=
  if strStartsWith ref "http://" || strStartsWith ref "https://" then some ref
  else none

/-- A concrete rule set whose `title`/`content` selectors exist but match
nothing in the empty document model, with no `links`/`images` selectors. -/
def emptyMatchRuleSet : RuleSet :=
  { name := "empty-match"
    rules := { title := some ".t", content := some ".c" } }

/-- A registry holding `emptyMatchRuleSet`. -/
def emptyMatchRegistry : RuleEngineState :=
  ⟨[("empty-match", emptyMatchRuleSet)]⟩

/-- A concrete rule set whose `links` and `images` selectors are given. -/
def linksRuleSet : RuleSet :=
  { name := "links-rules"
    rules := { links := some ".nonexistent a", images := some ".nonexistent img" } }

/-- A registry holding `linksRuleSet`. -/
def linksRegistry : RuleEngineState :=
  ⟨[("links-rules", linksRuleSet)]⟩

/-- A concrete batch environment: scraping `"bad"` fails, everything else
succeeds and is exported as its body text. -/
def sampleBatchEnv : BatchEnv where
  hostnameOf := fun u => .ok u
  getHdrs := fun _ => []
  scrapeFn := fun u _ =>
    if u = "bad" then .error "网络超时"
    else .ok { url := u, title := "t", content := "c", html := "<p>c</p>",
               links := [], images := [], metadata := [], timestamp := "" }
  applyFn := fun _ c => .ok c
  exportFn := fun c => .ok c.content
  ruleSet := none

/-- A concrete extracted record carrying one absolute link and one absolute
image reference. -/
def sampleLinkedRecord : ScrapedContent :=
  { url := "http://base/", title := "t", content := "c", html := "<p>c</p>",
    links := ["http://a/x"], images := ["http://a/y"], metadata := [],
    timestamp := "" }

/-! ## Lemmas: the text normalizer -/

theorem collapseWS_def (l : List Char) : collapseWS l = collapseRuns isWS l := rfl

theorem collapseBlank_def (l : List Char) :
    collapseBlank l = collapseBlankRuns isWS l := rfl

theorem collapseRuns_nil (p : Char → Bool) : collapseRuns p [] = [] := by
  rw [collapseRuns.eq_1]

theorem collapseRuns_pos {p : Char → Bool} {c : Char} (rest : List Char)
    (h : p c = true) :
    collapseRuns p (c :: rest) = ' ' :: collapseRuns p (rest.dropWhile p) := by
  rw [collapseRuns.eq_2, if_pos h]

theorem collapseRuns_neg {p : Char → Bool} {c : Char} (rest : List Char)
    (h : p c = false) :
    collapseRuns p (c :: rest) = c :: collapseRuns p rest := by
  rw [collapseRuns.eq_2, if_neg (by simp [h])]

theorem trimRight_cons (c : Char) (rest : List Char) :
    trimRight (c :: rest) =
      match trimRight rest with
      | [] => if isWS c then [] else [c]
      | r => c :: r := rfl

theorem isWS_space : isWS ' ' = true := by decide

theorem isWS_newline : isWS '\n' = true := by decide

theorem space_ne_newline : (' ' : Char) ≠ '\n' := by decide

theorem headNotWS_dropWhile (l : List Char) :
    headNotWS (l.dropWhile isWS) = true := by
  induction l with
  | nil => rfl
  | cons c rest ih =>
    by_cases h : isWS c
    · simpa [List.dropWhile_cons, h] using ih
    · simp [List.dropWhile_cons, h, headNotWS]

theorem dropWhile_eq_self_of_headNotWS {l : List Char}
    (h : headNotWS l = true) : l.dropWhile isWS = l := by
  cases l with
  | nil => rfl
  | cons c rest =>
    rw [headNotWS, Bool.not_eq_true'] at h
    simp [List.dropWhile_cons, h]

theorem headNotWS_collapseRuns {l : List Char} (h : headNotWS l = true) :
    headNotWS (collapseRuns isWS l) = true := by
  cases l with
  | nil => rw [collapseRuns_nil]; rfl
  | cons c rest =>
    rw [headNotWS, Bool.not_eq_true'] at h
    rw [collapseRuns_neg rest h, headNotWS, h]
    rfl

theorem wsOk_collapseRuns (l : List Char) : wsOk (collapseRuns isWS l) = true := by
  induction l using collapseRuns.induct isWS with
  | case1 => rw [collapseRuns_nil]; rfl
  | case2 c rest hc ih =>
    rw [collapseRuns_pos rest hc, wsOk]
    have h1 := headNotWS_collapseRuns (headNotWS_dropWhile rest)
    simp [h1, ih]
  | case3 c rest hc ih =>
    have hc' : isWS c = false := by revert hc; cases isWS c <;> simp
    rw [collapseRuns_neg rest hc', wsOk]
    simp [hc', ih]

theorem collapseRuns_of_wsOk : ∀ {l : List Char}, wsOk l = true →
    collapseRuns isWS l = l := by
  intro l
  induction l with
  | nil => intro _; exact collapseRuns_nil isWS
  | cons c rest ih =>
    intro h
    rw [wsOk, Bool.and_eq_true] at h
    obtain ⟨h1, h2⟩ := h
    by_cases hw : isWS c
    · rw [Bool.or_eq_true] at h1
      rcases h1 with h1 | h1
      · rw [Bool.not_eq_true', hw] at h1; cases h1
      · rw [Bool.and_eq_true] at h1
        obtain ⟨hceq, hhd⟩ := h1
        have hc' : c = ' ' := by simpa using hceq
        rw [collapseRuns_pos rest hw, dropWhile_eq_self_of_headNotWS hhd, ih h2, hc']
    · have hw' : isWS c = false := by revert hw; cases isWS c <;> simp
      rw [collapseRuns_neg rest hw', ih h2]

theorem wsOk_dropWhile {l : List Char} (h : wsOk l = true) :
    wsOk (l.dropWhile isWS) = true := by
  induction l with
  | nil => exact h
  | cons c rest ih =>
    rw [wsOk, Bool.and_eq_true] at h
    by_cases hw : isWS c
    · rw [List.dropWhile_cons, if_pos hw]
      exact ih h.2
    · rw [List.dropWhile_cons, if_neg hw, wsOk, Bool.and_eq_true]
      exact ⟨h.1, h.2⟩

theorem trimRight_cons_head (c : Char) (rest : List Char)
    (h : trimRight (c :: rest) ≠ []) : ∃ t, trimRight (c :: rest) = c :: t := by
  cases htr : trimRight rest with
  | nil =>
    by_cases hw : isWS c
    · exact absurd (by rw [trimRight_cons, htr]; simp [hw]) h
    · exact ⟨[], by rw [trimRight_cons, htr]; simp [hw]⟩
  | cons d t =>
    exact ⟨d :: t, by rw [trimRight_cons, htr]⟩

theorem mem_trimRight {x : Char} : ∀ {l : List Char}, x ∈ trimRight l → x ∈ l := by
  intro l
  induction l with
  | nil => simp [trimRight]
  | cons c rest ih =>
    intro hx
    cases htr : trimRight rest with
    | nil =>
      rw [trimRight_cons, htr] at hx
      by_cases hw : isWS c
      · simp [hw] at hx
      · rw [if_neg (by simp [hw])] at hx
        rcases List.mem_singleton.mp hx with h
        exact h ▸ List.mem_cons_self c rest
    | cons d t =>
      rw [trimRight_cons, htr] at hx
      rcases List.mem_cons.mp hx with h | h
      · exact h ▸ List.mem_cons_self c rest
      · exact List.mem_cons_of_mem _ (ih (htr.symm ▸ h))

theorem headNotWS_trimRight : ∀ {l : List Char}, headNotWS l = true →
    headNotWS (trimRight l) = true := by
  intro l
  cases l with
  | nil => intro _; rfl
  | cons c rest =>
    intro h
    cases htr : trimRight (c :: rest) with
    | nil => rfl
    | cons d t =>
      obtain ⟨t', ht'⟩ := trimRight_cons_head c rest (by rw [htr]; simp)
      rw [htr] at ht'
      rw [headNotWS]
      rw [(List.cons.injEq .. ▸ ht' : d = c ∧ t = t').1]
      exact h

theorem wsOk_trimRight : ∀ {l : List Char}, wsOk l = true →
    wsOk (trimRight l) = true := by
  intro l
  induction l with
  | nil => intro _; rfl
  | cons c rest ih =>
    intro h
    rw [wsOk, Bool.and_eq_true] at h
    obtain ⟨h1, h2⟩ := h
    cases htr : trimRight rest with
    | nil =>
      rw [trimRight_cons, htr]
      by_cases hw : isWS c
      · simp [hw, wsOk]
      · simp [hw, wsOk, headNotWS]
    | cons d t =>
      have ihr : wsOk (d :: t) = true := htr ▸ ih h2
      rw [trimRight_cons, htr]
      rw [wsOk, Bool.and_eq_true]
      refine ⟨?_, ihr⟩
      by_cases hw : isWS c
      · rw [Bool.or_eq_true] at h1
        rcases h1 with h1 | h1
        · rw [Bool.not_eq_true', hw] at h1; cases h1
        · rw [Bool.and_eq_true] at h1
          obtain ⟨hceq, hhd⟩ := h1
          have hhd' : headNotWS (trimRight rest) = true := headNotWS_trimRight hhd
          rw [htr] at hhd'
          simp [hceq, hhd']
      · have hc' : isWS c = false := by revert hw; cases isWS c <;> simp
        simp [hc']

theorem trimRight_idem : ∀ (l : List Char), trimRight (trimRight l) = trimRight l := by
  intro l
  induction l with
  | nil => rfl
  | cons c rest ih =>
    cases htr : trimRight rest with
    | nil =>
      by_cases hw : isWS c
      · rw [trimRight_cons, htr]
        simp [hw, trimRight]
      · rw [trimRight_cons, htr]
        simp [hw, trimRight]
    | cons d t =>
      have ihr : trimRight (d :: t) = d :: t := htr ▸ ih
      have h1 : trimRight (c :: rest) = c :: d :: t := by
        rw [trimRight_cons, htr]
      rw [h1, trimRight_cons, ihr]

theorem newline_not_mem_collapseRuns (l : List Char) :
    '\n' ∉ collapseRuns isWS l := by
  induction l using collapseRuns.induct isWS with
  | case1 => rw [collapseRuns_nil]; simp
  | case2 c rest hc ih =>
    rw [collapseRuns_pos rest hc]
    intro hmem
    rcases List.mem_cons.mp hmem with h | h
    · exact space_ne_newline h.symm
    · exact ih h
  | case3 c rest hc ih =>
    have hc' : isWS c = false := by revert hc; cases isWS c <;> simp
    rw [collapseRuns_neg rest hc']
    intro hmem
    rcases List.mem_cons.mp hmem with h | h
    · rw [← h, isWS_newline] at hc'
      cases hc'
    · exact ih h

theorem collapseBlankRuns_of_not_newline : ∀ {l : List Char}, '\n' ∉ l →
    collapseBlankRuns isWS l = l := by
  intro l
  induction l with
  | nil => intro _; rw [collapseBlankRuns.eq_1]
  | cons c rest ih =>
    intro h
    have hc : ¬ c = '\n' := fun hh => h (hh ▸ List.mem_cons_self c rest)
    rw [collapseBlankRuns.eq_2, if_neg hc, ih (fun hm => h (List.mem_cons_of_mem _ hm))]

theorem newline_not_mem_trimChars {l : List Char} (h : '\n' ∉ l) :
    '\n' ∉ trimChars l := by
  intro hmem
  exact h ((l.dropWhile_sublist isWS).subset (mem_trimRight hmem))

theorem wsOk_trimChars {l : List Char} (h : wsOk l = true) :
    wsOk (trimChars l) = true :=
  wsOk_trimRight (wsOk_dropWhile h)

theorem headNotWS_trimChars (l : List Char) : headNotWS (trimChars l) = true :=
  headNotWS_trimRight (headNotWS_dropWhile l)

theorem trimChars_idem (l : List Char) : trimChars (trimChars l) = trimChars l := by
  rw [trimChars, dropWhile_eq_self_of_headNotWS (headNotWS_trimChars l)]
  exact trimRight_idem _

/-- List-level idempotence of the full `cleanText` pipeline. -/
theorem cleanChars_idem (l : List Char) :
    trimChars (collapseBlank (collapseWS
      (trimChars (collapseBlank (collapseWS l))))) =
    trimChars (collapseBlank (collapseWS l)) := by
  simp only [collapseWS_def, collapseBlank_def]
  have hnl : '\n' ∉ collapseRuns isWS l := newline_not_mem_collapseRuns l
  rw [collapseBlankRuns_of_not_newline hnl]
  have ht : wsOk (trimChars (collapseRuns isWS l)) = true :=
    wsOk_trimChars (wsOk_collapseRuns l)
  rw [collapseRuns_of_wsOk ht,
    collapseBlankRuns_of_not_newline (newline_not_mem_trimChars hnl),
    trimChars_idem]

/-- `cleanText` is idempotent: the final normalization pass of rule
application leaves already-normalized extractor output unchanged. -/
theorem cleanText_idem (s : String) : cleanText (cleanText s) = cleanText s :=
  congrArg String.mk (cleanChars_idem s.data)

/-! ## Lemmas: deduplication and JavaScript objects -/

theorem mem_dedupFirstAux {x : String} : ∀ (l seen : List String),
    x ∈ dedupFirstAux seen l ↔ x ∈ l ∧ x ∉ seen := by
  intro l
  induction l with
  | nil =>
    intro seen
    simp [dedupFirstAux]
  | cons y ys ih =>
    intro seen
    by_cases hy : y ∈ seen
    · simp only [dedupFirstAux, if_pos hy]
      rw [ih seen]
      constructor
      · rintro ⟨h1, h2⟩
        exact ⟨List.mem_cons_of_mem _ h1, h2⟩
      · rintro ⟨h1, h2⟩
        rcases List.mem_cons.mp h1 with h | h
        · subst h
          exact absurd hy h2
        · exact ⟨h, h2⟩
    · simp only [dedupFirstAux, if_neg hy]
      constructor
      · intro hmem
        rcases List.mem_cons.mp hmem with h | h
        · subst h
          exact ⟨List.mem_cons_self x ys, hy⟩
        · have hih := (ih (y :: seen)).mp h
          exact ⟨List.mem_cons_of_mem _ hih.1,
            fun hs => hih.2 (List.mem_cons_of_mem _ hs)⟩
      · rintro ⟨h1, h2⟩
        rcases List.mem_cons.mp h1 with h | h
        · subst h
          exact List.mem_cons_self x _
        · by_cases hxy : x = y
          · subst hxy
            exact List.mem_cons_self x _
          · refine List.mem_cons_of_mem _ ((ih (y :: seen)).mpr ⟨h, ?_⟩)
            intro hs
            rcases List.mem_cons.mp hs with h' | h'
            · exact hxy h'
            · exact h2 h'

theorem mem_dedupFirst {x : String} {l : List String} :
    x ∈ dedupFirst l ↔ x ∈ l := by
  rw [dedupFirst, mem_dedupFirstAux]
  simp

theorem nodup_dedupFirstAux : ∀ (l seen : List String),
    (dedupFirstAux seen l).Nodup := by
  intro l
  induction l with
  | nil =>
    intro seen
    simp [dedupFirstAux]
  | cons y ys ih =>
    intro seen
    by_cases hy : y ∈ seen
    · simp only [dedupFirstAux, if_pos hy]
      exact ih seen
    · simp only [dedupFirstAux, if_neg hy]
      refine List.nodup_cons.mpr ⟨?_, ih (y :: seen)⟩
      intro hmem
      exact ((mem_dedupFirstAux ys (y :: seen)).mp hmem).2 (List.mem_cons_self y seen)

theorem nodup_dedupFirst (l : List String) : (dedupFirst l).Nodup :=
  nodup_dedupFirstAux l []

theorem objGet_objSet_self {β : Type} (o : List (String × β)) (k : String)
    (v : β) : objGet (objSet o k v) k = some v := by
  rw [objSet]
  by_cases hany : o.any (fun p => p.1 == k) = true
  · rw [if_pos hany]
    induction o with
    | nil => cases hany
    | cons p o' ih =>
      rw [List.map_cons]
      by_cases hp : (p.1 == k) = true
      · rw [if_pos hp, objGet]
        have hfind : List.find? (fun p : String × β => p.1 == k)
            ((k, v) :: o'.map (fun p => if (p.1 == k) = true then (k, v) else p)) =
            some (k, v) :=
          List.find?_cons_of_pos _ (by simp)
        rw [hfind]
        rfl
      · rw [if_neg hp, objGet]
        have hfind : List.find? (fun p : String × β => p.1 == k)
            (p :: o'.map (fun p => if (p.1 == k) = true then (k, v) else p)) =
            List.find? (fun p : String × β => p.1 == k)
              (o'.map (fun p => if (p.1 == k) = true then (k, v) else p)) :=
          List.find?_cons_of_neg _ hp
        rw [hfind]
        rw [List.any_cons] at hany
        rcases Bool.or_eq_true_iff.mp hany with h | h
        · exact absurd h hp
        · exact ih h
  · rw [if_neg hany]
    rw [objGet, List.find?_append]
    have hnone : o.find? (fun p : String × β => p.1 == k) = none :=
      List.find?_eq_none.mpr (fun x hx hpx =>
        hany (List.any_eq_true.mpr ⟨x, hx, hpx⟩))
    have hone : List.find? (fun p : String × β => p.1 == k) [(k, v)] =
        some (k, v) :=
      List.find?_cons_of_pos _ (by simp)
    rw [hnone, Option.none_or, hone]
    rfl

theorem find?_filter_of_pred_imp {α : Type} (pred g : α → Bool) :
    ∀ (l : List α), (∀ x ∈ l, pred x = true → g x = true) →
    (l.filter g).find? pred = l.find? pred := by
  intro l
  induction l with
  | nil => intro _; rfl
  | cons q l' ih =>
    intro h
    by_cases hg : g q = true
    · rw [List.filter_cons_of_pos hg]
      by_cases hp : pred q = true
      · rw [List.find?_cons_of_pos _ hp, List.find?_cons_of_pos _ hp]
      · rw [List.find?_cons_of_neg _ hp, List.find?_cons_of_neg _ hp]
        exact ih (fun x hx => h x (List.mem_cons_of_mem _ hx))
    · rw [List.filter_cons_of_neg hg]
      have hp : ¬ pred q = true :=
        fun hpq => hg (h q (List.mem_cons_self q l') hpq)
      rw [List.find?_cons_of_neg _ hp]
      exact ih (fun x hx => h x (List.mem_cons_of_mem _ hx))

theorem objGet_objMerge {β : Type} (older newer : List (String × β))
    (k : String) :
    objGet (objMerge older newer) k =
      match objGet newer k with
      | some v => some v
      | none => objGet older k := by
  rw [objMerge, objGet, List.find?_append, List.find?_map]
  have hcomp : ((fun p : String × β => p.1 == k) ∘
      (fun p : String × β =>
        match objGet newer p.1 with
        | some v => (p.1, v)
        | none => p)) = (fun p : String × β => p.1 == k) := by
    funext q
    simp only [Function.comp]
    cases hnq : objGet newer q.1 <;> simp [hnq]
  rw [hcomp]
  cases hfind : older.find? (fun p : String × β => p.1 == k) with
  | some p₀ =>
    have hk : p₀.1 = k := by
      have := List.find?_some hfind
      simpa using this
    have holder : objGet older k = some p₀.2 := by rw [objGet, hfind]; rfl
    rw [holder]
    simp only [Option.map_some']
    have hor : ∀ (x : Option (String × β)) (a : String × β),
        (some a).or x = some a := fun _ _ => rfl
    rw [hor]
    simp only [Option.map_some']
    rw [hk]
    cases objGet newer k <;> rfl
  | none =>
    have holder : objGet older k = none := by rw [objGet, hfind]; rfl
    simp only [Option.map_none', Option.none_or]
    rw [find?_filter_of_pred_imp _ _ newer (fun q _ hq => by
      have hq' : q.1 = k := by simpa using hq
      rw [hq', holder]
      rfl)]
    rw [holder]
    cases hn : newer.find? (fun p : String × β => p.1 == k) <;> simp [objGet, hn]

/-! ## Lemmas: header store -/

theorem getHeaders_setHeaders (st : HeaderManagerState) (domain : String)
    (h : Headers) :
    getHeaders (setHeaders st domain h) domain =
      objMerge (getHeaders st domain) h := by
  simp only [setHeaders, getHeaders, objGet_objSet_self, Option.getD_some]

/-- Shared helper: per-key view of a `setHeaders` followed by `getHeaders`. -/
theorem objGet_getHeaders_setHeaders (st : HeaderManagerState)
    (domain : String) (h : Headers) (k : String) :
    objGet (getHeaders (setHeaders st domain h) domain) k =
      (objGet h k).or (objGet (getHeaders st domain) k) := by
  rw [getHeaders_setHeaders, objGet_objMerge]
  cases objGet h k <;> rfl

/-- **C10**: `HeaderManager.setHeaders(domain, h)` merges `h` into the
headers previously stored for the normalized domain: afterwards
`getHeaders(domain)` maps every key to `h`'s value when `h` has the key and
to its previous value otherwise, so stored fields are never removed by a
later `setHeaders` call. -/
theorem C10_setHeaders_merges (st : HeaderManagerState) (domain : String)
    (h : Headers) (k : String) :
    objGet (getHeaders (setHeaders st domain h) domain) k =
      (objGet h k).or (objGet (getHeaders st domain) k) :=
  objGet_getHeaders_setHeaders st domain h k

/-- Witness for C10 at a concrete store: a second `setHeaders` call updates
the overridden key, and keeps a key absent from the new headers. -/
theorem C10_witness :
    objGet (getHeaders (setHeaders
        ⟨[("github.com", [("A", "1"), ("B", "2")])]⟩
        "github.com" [("B", "9")]) "github.com") "A" = some "1" ∧
    objGet (getHeaders (setHeaders
        ⟨[("github.com", [("A", "1"), ("B", "2")])]⟩
        "github.com" [("B", "9")]) "github.com") "B" = some "9" :=
  ⟨(C10_setHeaders_merges ⟨[("github.com", [("A", "1"), ("B", "2")])]⟩
      "github.com" [("B", "9")] "A").trans (by decide),
   (C10_setHeaders_merges ⟨[("github.com", [("A", "1"), ("B", "2")])]⟩
      "github.com" [("B", "9")] "B").trans (by decide)⟩

/-- **C9** (implicit): for a network (non-`data:`) `scrape_url` request with
`customHeaders`, those headers are written into the process-wide per-domain
store for the URL's hostname before the fetch — they are part of the headers
handed to the fetch, and they persist in the store state left behind by the
request, so every later read for the same domain (e.g. a batch item) sees
them: the "one-time" headers are not scoped to the single call. -/
theorem C9_custom_headers_persist (st : HeaderManagerState)
    (url hostname : String) (h : Headers) (k v : String)
    (hurl : strStartsWith url "data:" = false)
    (hk : objGet h k = some v) :
    objGet (prepareHeaders st url hostname (some h)).2 k = some v ∧
    objGet (getHeaders (prepareHeaders st url hostname (some h)).1 hostname) k
      = some v := by
  have hpair : prepareHeaders st url hostname (some h) =
      (setHeaders st hostname h, getHeaders (setHeaders st hostname h) hostname) := by
    rw [prepareHeaders, if_neg (by simp [hurl])]
  rw [hpair]
  have hboth : objGet (getHeaders (setHeaders st hostname h) hostname) k = some v := by
    rw [objGet_getHeaders_setHeaders, hk]
    rfl
  exact ⟨hboth, hboth⟩

/-- Witness for C9: a concrete request to `https://api.example.com/data`
with a one-time `Authorization` header leaves it readable from the store. -/
theorem C9_witness :
    objGet (prepareHeaders ⟨[]⟩ "https://api.example.com/data"
      "api.example.com" (some [("Authorization", "Bearer tok")])).2
      "Authorization" = some "Bearer tok" ∧
    objGet (getHeaders (prepareHeaders ⟨[]⟩ "https://api.example.com/data"
      "api.example.com" (some [("Authorization", "Bearer tok")])).1
      "api.example.com") "Authorization" = some "Bearer tok" :=
  C9_custom_headers_persist ⟨[]⟩ "https://api.example.com/data"
    "api.example.com" [("Authorization", "Bearer tok")]
    "Authorization" "Bearer tok" (by decide) (by decide)

/-! ## Lemmas: batch orchestrator -/

theorem handleBatchScrape_eq_map (env : BatchEnv) (urls : List String) :
    handleBatchScrape env urls = urls.map (batchUnit env) := by
  rw [handleBatchScrape, List.map_map]
  rfl

/-- **C2**: the batch orchestrator returns exactly one entry per input
address, in input order; entry `i` is a function of address `i` alone (so a
failure in one unit of work leaves every other entry unaffected, and the
result — a total function of all settled units — exists only once every
unit has settled); a unit whose pipeline fails at any step yields a
`success:false` entry carrying the error message, and a unit whose pipeline
succeeds yields a `success:true` entry; the orchestrator itself never
fails. -/
theorem C2_batch_isolation (env : BatchEnv) (urls : List String) :
    (handleBatchScrape env urls).length = urls.length ∧
    (∀ i : Nat, (handleBatchScrape env urls)[i]? =
      (urls[i]?).map (batchUnit env)) ∧
    (∀ url e, unitPipeline env url = .error e →
      batchUnit env url =
        { url := some url, success := false, content := none, error := some e }) ∧
    (∀ url s, unitPipeline env url = .ok s →
      batchUnit env url =
        { url := some url, success := true, content := some s, error := none }) := by
  refine ⟨?_, ?_, ?_, ?_⟩
  · rw [handleBatchScrape_eq_map, List.length_map]
  · intro i
    rw [handleBatchScrape_eq_map, List.getElem?_map]
  · intro url e he
    rw [batchUnit, he]
  · intro url s hs
    rw [batchUnit, hs]

/-- Witness for C2 on a concrete two-address batch whose second address
always fails: two entries, in order, the failing one marked. -/
theorem C2_witness :
    (handleBatchScrape sampleBatchEnv ["good", "bad"]).length =
      (["good", "bad"] : List String).length ∧
    (handleBatchScrape sampleBatchEnv ["good", "bad"])[1]? =
      ((["good", "bad"] : List String)[1]?).map (batchUnit sampleBatchEnv) ∧
    batchUnit sampleBatchEnv "bad" =
      { url := some "bad", success := false, content := none,
        error := some "网络超时" } :=
  ⟨(C2_batch_isolation sampleBatchEnv ["good", "bad"]).1,
   (C2_batch_isolation sampleBatchEnv ["good", "bad"]).2.1 1,
   (C2_batch_isolation sampleBatchEnv ["good", "bad"]).2.2.1 "bad" "网络超时"
     (by rfl)⟩

/-! ## Lemmas: render-session lifecycle -/

theorem puppeteerStep_events (st : ScraperState) (lr pr : Except String Unit)
    (nr : Except String String) :
    ((puppeteerStep st lr pr nr).2.2.count Ev.newPage =
      (puppeteerStep st lr pr nr).2.2.count Ev.closePage) ∧
    Ev.closeBrowser ∉ (puppeteerStep st lr pr nr).2.2 ∧
    ((puppeteerStep st lr pr nr).1.launches =
      st.launches + (puppeteerStep st lr pr nr).2.2.count Ev.launch) ∧
    (∀ b, st.browser = some b →
      (puppeteerStep st lr pr nr).1.browser = some b) := by
  cases hb : st.browser <;> cases lr <;> cases pr <;> cases nr <;>
    simp [puppeteerStep, hb]

theorem puppeteerStep_inv (st : ScraperState) (lr pr : Except String Unit)
    (nr : Except String String)
    (h0 : st.browser = none → st.launches = 0)
    (h1 : ∀ b, st.browser = some b → st.launches = 1) :
    ((puppeteerStep st lr pr nr).1.browser = none →
      (puppeteerStep st lr pr nr).1.launches = 0) ∧
    (∀ b, (puppeteerStep st lr pr nr).1.browser = some b →
      (puppeteerStep st lr pr nr).1.launches = 1) := by
  cases hb : st.browser with
  | none =>
    have h0' := h0 hb
    cases lr <;> cases pr <;> cases nr <;> simp [puppeteerStep, hb, h0']
  | some b =>
    have h1' := h1 b hb
    cases lr <;> cases pr <;> cases nr <;> simp [puppeteerStep, hb, h1']

theorem runCalls_facts : ∀ (calls : List CallOutcome) (st : ScraperState),
    (st.browser = none → st.launches = 0) →
    (∀ b, st.browser = some b → st.launches = 1) →
    (((runCalls st calls).1.browser = none →
        (runCalls st calls).1.launches = 0) ∧
     (∀ b, (runCalls st calls).1.browser = some b →
        (runCalls st calls).1.launches = 1) ∧
     ((runCalls st calls).2.count Ev.launch + st.launches =
        (runCalls st calls).1.launches) ∧
     ((runCalls st calls).2.count Ev.newPage =
        (runCalls st calls).2.count Ev.closePage) ∧
     Ev.closeBrowser ∉ (runCalls st calls).2) := by
  intro calls
  induction calls with
  | nil =>
    intro st h0 h1
    exact ⟨h0, h1, by simp [runCalls], by simp [runCalls], by simp [runCalls]⟩
  | cons o rest ih =>
    intro st h0 h1
    have hstep := puppeteerStep_events st o.launchOutcome o.newPageOutcome o.navOutcome
    have hinv := puppeteerStep_inv st o.launchOutcome o.newPageOutcome o.navOutcome h0 h1
    have ihr := ih (puppeteerStep st o.launchOutcome o.newPageOutcome o.navOutcome).1
      hinv.1 hinv.2
    have hun : runCalls st (o :: rest) =
        ((runCalls (puppeteerStep st o.launchOutcome o.newPageOutcome o.navOutcome).1 rest).1,
         (puppeteerStep st o.launchOutcome o.newPageOutcome o.navOutcome).2.2 ++
           (runCalls (puppeteerStep st o.launchOutcome o.newPageOutcome o.navOutcome).1 rest).2) := by
      simp [runCalls]
    rw [hun]
    dsimp only
    refine ⟨ihr.1, ihr.2.1, ?_, ?_, ?_⟩
    · rw [List.count_append]
      have h3 := ihr.2.2.1
      have h4 := hstep.2.2.1
      omega
    · rw [List.count_append, List.count_append, hstep.1, ihr.2.2.2.1]
    · rw [List.mem_append]
      intro hmem
      rcases hmem with h | h
      · exact hstep.2.1 h
      · exact ihr.2.2.2.2 h

/-- **C8**: across every sequence of rendering calls on one scraper started
fresh, at most one browser session is ever launched (lazily, by the first
call that needs it); every page opened during the sequence is closed within
its call regardless of outcome, and no rendering call ever closes the shared
session.  Moreover any call on a scraper already holding a browser keeps
holding the same browser (reuse), and the explicit `close` operation is the
one that clears the handle. -/
theorem C8_session_lifecycle :
    (∀ calls : List CallOutcome,
      (runCalls initScraperState calls).2.count Ev.launch ≤ 1 ∧
      (runCalls initScraperState calls).2.count Ev.newPage =
        (runCalls initScraperState calls).2.count Ev.closePage ∧
      Ev.closeBrowser ∉ (runCalls initScraperState calls).2) ∧
    (∀ (st : ScraperState) (lr pr : Except String Unit)
        (nr : Except String String) (b : Nat),
      st.browser = some b → (puppeteerStep st lr pr nr).1.browser = some b) ∧
    (∀ st : ScraperState, (closeStep st).1.browser = none) := by
  refine ⟨?_, ?_, ?_⟩
  · intro calls
    have hf := runCalls_facts calls initScraperState (fun _ => rfl)
      (fun b hb => Option.noConfusion hb)
    refine ⟨?_, hf.2.2.2.1, hf.2.2.2.2⟩
    have hc := hf.2.2.1
    have hz : initScraperState.launches = 0 := rfl
    rw [hz] at hc
    cases hbr : (runCalls initScraperState calls).1.browser with
    | none =>
      have h0 := hf.1 hbr
      omega
    | some b =>
      have h1 := hf.2.1 b hbr
      omega
  · intro st lr pr nr b hb
    exact (puppeteerStep_events st lr pr nr).2.2.2 b hb
  · intro st
    cases hb : st.browser <;> simp [closeStep, hb]

/-- Witness for C8: a call on a scraper already holding browser `0` still
holds browser `0` afterwards. -/
theorem C8_witness :
    (puppeteerStep { browser := some 0, launches := 1 } (Except.ok ())
      (Except.ok ()) (Except.ok "<p></p>")).1.browser = some 0 :=
  C8_session_lifecycle.2.1 { browser := some 0, launches := 1 }
    (Except.ok ()) (Except.ok ()) (Except.ok "<p></p>") 0 rfl

/-! ## Lemmas: extractor and rule engine -/

theorem mem_resolveRefs {resolve : String → String → Option String}
    {base x : String} {refs : List (Option String)}
    (hx : x ∈ resolveRefs resolve base refs) :
    ∃ h, resolve h base = some x := by
  rw [resolveRefs] at hx
  obtain ⟨a, _, ha⟩ := List.mem_filterMap.mp hx
  cases a with
  | none => exact Option.noConfusion ha
  | some h =>
    by_cases hne : h = ""
    · rw [hne] at ha
      simp at ha
    · refine ⟨h, ?_⟩
      rw [show ((match some h with
        | some h => if h = "" then none else resolve h base
        | none => none) : Option String) = if h = "" then none else resolve h base
        from rfl, if_neg hne] at ha
      exact ha

theorem extractContent_title {Doc : Type} (ops : ExtractOps Doc)
    (resolve : String → String → Option String) (d : Doc) (url html : String) :
    (extractContent ops resolve d url html).title =
      jsOr (trimStr (ops.textOf d "title"))
        (jsOr (trimStr (ops.firstText d "h1")) "无标题") := rfl

theorem extractContent_content {Doc : Type} (ops : ExtractOps Doc)
    (resolve : String → String → Option String) (d : Doc) (url html : String) :
    (extractContent ops resolve d url html).content =
      cleanText (bodyResolution ops d).2 := rfl

theorem extractContent_html {Doc : Type} (ops : ExtractOps Doc)
    (resolve : String → String → Option String) (d : Doc) (url html : String) :
    (extractContent ops resolve d url html).html = html := rfl

theorem extractContent_links {Doc : Type} (ops : ExtractOps Doc)
    (resolve : String → String → Option String) (d : Doc) (url html : String) :
    (extractContent ops resolve d url html).links =
      dedupFirst (resolveRefs resolve url (ops.hrefs (bodyResolution ops d).1)) := rfl

theorem extractContent_images {Doc : Type} (ops : ExtractOps Doc)
    (resolve : String → String → Option String) (d : Doc) (url html : String) :
    (extractContent ops resolve d url html).images =
      dedupFirst (resolveRefs resolve url (ops.srcs (bodyResolution ops d).1)) := rfl

theorem applyRulesFound_title {Doc : Type} (ops : RuleOps Doc)
    (resolve : String → String → Option String) (rs : RuleSet)
    (ruleSetName : String) (c : ScrapedContent) :
    (applyRulesFound ops resolve rs ruleSetName c).title =
      (match strGiven rs.rules.title with
      | none => c.title
      | some sel =>
        match ops.texts (excludedDoc ops rs c.html) sel with
        | [] => c.title
        | t :: _ => trimStr t) := rfl

theorem applyRulesFound_content {Doc : Type} (ops : RuleOps Doc)
    (resolve : String → String → Option String) (rs : RuleSet)
    (ruleSetName : String) (c : ScrapedContent) :
    (applyRulesFound ops resolve rs ruleSetName c).content =
      cleanText (match strGiven rs.rules.content with
      | none => c.content
      | some sel =>
        match ops.texts (excludedDoc ops rs c.html) sel with
        | [] => c.content
        | ts => String.intercalate "\n\n" ts) := rfl

theorem applyRulesFound_links {Doc : Type} (ops : RuleOps Doc)
    (resolve : String → String → Option String) (rs : RuleSet)
    (ruleSetName : String) (c : ScrapedContent) :
    (applyRulesFound ops resolve rs ruleSetName c).links =
      dedupFirst (match strGiven rs.rules.links with
      | none => c.links
      | some sel =>
        resolveRefs resolve c.url
          (ops.attrs (excludedDoc ops rs c.html) sel "href")) := rfl

theorem applyRulesFound_images {Doc : Type} (ops : RuleOps Doc)
    (resolve : String → String → Option String) (rs : RuleSet)
    (ruleSetName : String) (c : ScrapedContent) :
    (applyRulesFound ops resolve rs ruleSetName c).images =
      dedupFirst (match strGiven rs.rules.images with
      | none => c.images
      | some sel =>
        resolveRefs resolve c.url
          (ops.attrs (excludedDoc ops rs c.html) sel "src")) := rfl

/-- **C7**: the extractor is total — embedded as a plain function into
`ScrapedContent`, faithful to a body with no throwing operation — and
`bodyText` is always a defined, normalized (possibly empty) string; missing
structure only degrades output: the title falls back from the title element
to the first heading to the fixed placeholder, so it is never empty, and
when both title sources are blank it is exactly the placeholder. -/
theorem C7_extractor_never_fails {Doc : Type} (ops : ExtractOps Doc)
    (resolve : String → String → Option String) (d : Doc) (url html : String) :
    (∃ r : ScrapedContent, extractContent ops resolve d url html = r) ∧
    (extractContent ops resolve d url html).content =
      cleanText (bodyResolution ops d).2 ∧
    (extractContent ops resolve d url html).title ≠ "" ∧
    (trimStr (ops.textOf d "title") = "" →
      trimStr (ops.firstText d "h1") = "" →
      (extractContent ops resolve d url html).title = "无标题") := by
  refine ⟨⟨_, rfl⟩, rfl, ?_, ?_⟩
  · rw [extractContent_title]
    by_cases ha : trimStr (ops.textOf d "title") = ""
    · rw [jsOr, if_pos ha]
      by_cases hb : trimStr (ops.firstText d "h1") = ""
      · rw [jsOr, if_pos hb]
        intro hcontra
        exact absurd hcontra (by decide)
      · rw [jsOr, if_neg hb]
        exact hb
    · rw [jsOr, if_neg ha]
      exact ha
  · intro h1 h2
    rw [extractContent_title, jsOr, if_pos h1, jsOr, if_pos h2]

/-- Witness for C7 on the empty document model: both title sources are
blank, so the record carries the placeholder title. -/
theorem C7_witness :
    (extractContent unitOps unitResolve () "http://a" "<p></p>").title =
      "无标题" :=
  (C7_extractor_never_fails unitOps unitResolve () "http://a" "<p></p>").2.2.2
    rfl rfl

/-- **C6**: every record produced by the extractor, and every record
produced by rule application from a record satisfying the invariant, has
`links`/`images` containing only references that resolved successfully
against the record's base address (failed resolutions are silently dropped,
never stored in their original form), with exactly one entry per distinct
resolved address. -/
theorem C6_links_images_invariant {Doc : Type} (ops : ExtractOps Doc)
    (rops : RuleOps Doc) (resolve : String → String → Option String)
    (d : Doc) (url html : String) (rs : RuleSet) (ruleSetName : String)
    (c : ScrapedContent) :
    (∀ x ∈ (extractContent ops resolve d url html).links,
      ∃ h, resolve h url = some x) ∧
    (extractContent ops resolve d url html).links.Nodup ∧
    (∀ x ∈ (extractContent ops resolve d url html).images,
      ∃ h, resolve h url = some x) ∧
    (extractContent ops resolve d url html).images.Nodup ∧
    ((∀ x ∈ c.links, ∃ h, resolve h c.url = some x) →
      ∀ x ∈ (applyRulesFound rops resolve rs ruleSetName c).links,
        ∃ h, resolve h c.url = some x) ∧
    (applyRulesFound rops resolve rs ruleSetName c).links.Nodup ∧
    ((∀ x ∈ c.images, ∃ h, resolve h c.url = some x) →
      ∀ x ∈ (applyRulesFound rops resolve rs ruleSetName c).images,
        ∃ h, resolve h c.url = some x) ∧
    (applyRulesFound rops resolve rs ruleSetName c).images.Nodup := by
  refine ⟨?_, ?_, ?_, ?_, ?_, ?_, ?_, ?_⟩
  · intro x hx
    rw [extractContent_links] at hx
    exact mem_resolveRefs (mem_dedupFirst.mp hx)
  · rw [extractContent_links]
    exact nodup_dedupFirst _
  · intro x hx
    rw [extractContent_images] at hx
    exact mem_resolveRefs (mem_dedupFirst.mp hx)
  · rw [extractContent_images]
    exact nodup_dedupFirst _
  · intro hinv x hx
    rw [applyRulesFound_links] at hx
    have hx' := mem_dedupFirst.mp hx
    cases hsel : strGiven rs.rules.links with
    | none =>
      rw [hsel] at hx'
      exact hinv x hx'
    | some sel =>
      rw [hsel] at hx'
      exact mem_resolveRefs hx'
  · rw [applyRulesFound_links]
    exact nodup_dedupFirst _
  · intro hinv x hx
    rw [applyRulesFound_images] at hx
    have hx' := mem_dedupFirst.mp hx
    cases hsel : strGiven rs.rules.images with
    | none =>
      rw [hsel] at hx'
      exact hinv x hx'
    | some sel =>
      rw [hsel] at hx'
      exact mem_resolveRefs hx'
  · rw [applyRulesFound_images]
    exact nodup_dedupFirst _

/-- Witness for C6: applying a rule set with no `links` selector to a
record holding one resolvable link yields only resolver-produced links at
that concrete input. -/
theorem C6_witness :
    ∃ h, unitResolve h sampleLinkedRecord.url = some "http://a/x" :=
  (C6_links_images_invariant unitOps unitRuleOps unitResolve () "u" "h"
    emptyMatchRuleSet "empty-match" sampleLinkedRecord).2.2.2.2.1
    (fun x hx => by
      rcases List.mem_singleton.mp hx with h
      exact ⟨"http://a/x", by rw [h]; rfl⟩)
    "http://a/x" (by decide)

/-- **C4**: round trip — a record produced by the extractor, passed through
`applyRules` with a registered rule set whose `title` and `content`
selectors match nothing in the record's stored markup and which specifies
no `links`/`images` selectors, yields a record whose `title` and `bodyText`
are exactly the pre-rule values; the final normalization pass of rule
application is idempotent on the already-normalized extractor output. -/
theorem C4_round_trip {Doc D2 : Type} (ops : ExtractOps Doc)
    (rops : RuleOps D2) (resolve rresolve : String → String → Option String)
    (d : Doc) (url html : String) (st : RuleEngineState) (ruleSetName : String)
    (rs : RuleSet) (tSel cSel : String)
    (hfound : objGet st.ruleSets ruleSetName = some rs)
    (ht : strGiven rs.rules.title = some tSel)
    (hc : strGiven rs.rules.content = some cSel)
    (htm : rops.texts (excludedDoc rops rs
      (extractContent ops resolve d url html).html) tSel = [])
    (hcm : rops.texts (excludedDoc rops rs
      (extractContent ops resolve d url html).html) cSel = []) :
    applyRules rops rresolve st ruleSetName
        (extractContent ops resolve d url html) =
      .ok (applyRulesFound rops rresolve rs ruleSetName
        (extractContent ops resolve d url html)) ∧
    (applyRulesFound rops rresolve rs ruleSetName
        (extractContent ops resolve d url html)).title =
      (extractContent ops resolve d url html).title ∧
    (applyRulesFound rops rresolve rs ruleSetName
        (extractContent ops resolve d url html)).content =
      (extractContent ops resolve d url html).content := by
  refine ⟨?_, ?_, ?_⟩
  · rw [applyRules, hfound]
  · rw [applyRulesFound_title]
    simp only [ht, htm]
  · rw [applyRulesFound_content]
    simp only [hc, hcm]
    rw [extractContent_content]
    exact cleanText_idem _

/-- Witness for C4 on the empty document model with the concrete
`empty-match` rule set: rule application preserves title and body text. -/
theorem C4_witness :
    applyRules unitRuleOps unitResolve emptyMatchRegistry "empty-match"
        (extractContent unitOps unitResolve () "http://a" "<p>hello</p>") =
      .ok (applyRulesFound unitRuleOps unitResolve emptyMatchRuleSet
        "empty-match"
        (extractContent unitOps unitResolve () "http://a" "<p>hello</p>")) ∧
    (applyRulesFound unitRuleOps unitResolve emptyMatchRuleSet "empty-match"
        (extractContent unitOps unitResolve () "http://a" "<p>hello</p>")).title =
      (extractContent unitOps unitResolve () "http://a" "<p>hello</p>").title ∧
    (applyRulesFound unitRuleOps unitResolve emptyMatchRuleSet "empty-match"
        (extractContent unitOps unitResolve () "http://a" "<p>hello</p>")).content =
      (extractContent unitOps unitResolve () "http://a" "<p>hello</p>").content :=
  C4_round_trip unitOps unitRuleOps unitResolve unitResolve () "http://a"
    "<p>hello</p>" emptyMatchRegistry "empty-match" emptyMatchRuleSet
    ".t" ".c" rfl rfl rfl rfl rfl

/-- **C5**: replace-entirely semantics — when a rule set's `links` selector
is given, the resulting record's links are exactly the deduplicated
addresses resolved from the matched elements, so a selector matching no
element yields an empty links set rather than the original one; the same
holds for `images`. -/
theorem C5_replace_entirely {Doc : Type} (rops : RuleOps Doc)
    (resolve : String → String → Option String) (st : RuleEngineState)
    (ruleSetName : String) (rs : RuleSet) (lSel iSel : String)
    (c : ScrapedContent)
    (hfound : objGet st.ruleSets ruleSetName = some rs)
    (hl : strGiven rs.rules.links = some lSel)
    (hi : strGiven rs.rules.images = some iSel) :
    applyRules rops resolve st ruleSetName c =
      .ok (applyRulesFound rops resolve rs ruleSetName c) ∧
    (applyRulesFound rops resolve rs ruleSetName c).links =
      dedupFirst (resolveRefs resolve c.url
        (rops.attrs (excludedDoc rops rs c.html) lSel "href")) ∧
    (rops.attrs (excludedDoc rops rs c.html) lSel "href" = [] →
      (applyRulesFound rops resolve rs ruleSetName c).links = []) ∧
    (applyRulesFound rops resolve rs ruleSetName c).images =
      dedupFirst (resolveRefs resolve c.url
        (rops.attrs (excludedDoc rops rs c.html) iSel "src")) ∧
    (rops.attrs (excludedDoc rops rs c.html) iSel "src" = [] →
      (applyRulesFound rops resolve rs ruleSetName c).images = []) := by
  refine ⟨?_, ?_, ?_, ?_, ?_⟩
  · rw [applyRules, hfound]
  · rw [applyRulesFound_links]
    simp only [hl]
  · intro hempty
    rw [applyRulesFound_links]
    simp only [hl, hempty]
    rfl
  · rw [applyRulesFound_images]
    simp only [hi]
  · intro hempty
    rw [applyRulesFound_images]
    simp only [hi, hempty]
    rfl

/-- Witness for C5: the concrete `links-rules` rule set, whose selectors
match nothing in the empty document model, empties both sets of a record
that previously held a link and an image. -/
theorem C5_witness :
    (applyRulesFound unitRuleOps unitResolve linksRuleSet "links-rules"
      sampleLinkedRecord).links = [] ∧
    (applyRulesFound unitRuleOps unitResolve linksRuleSet "links-rules"
      sampleLinkedRecord).images = [] :=
  ⟨(C5_replace_entirely unitRuleOps unitResolve linksRegistry "links-rules"
      linksRuleSet ".nonexistent a" ".nonexistent img" sampleLinkedRecord
      rfl rfl rfl).2.2.1 rfl,
   (C5_replace_entirely unitRuleOps unitResolve linksRegistry "links-rules"
      linksRuleSet ".nonexistent a" ".nonexistent img" sampleLinkedRecord
      rfl rfl rfl).2.2.2.2 rfl⟩

/-! ## Lemmas: two-tier strategy -/

theorem scrape_static_ok {Doc : Type} (ops : ExtractOps Doc)
    (resolve : String → String → Option String) (url fetchedHtml : String)
    (renderOutcome : Except String String)
    (hurl : strStartsWith url "data:" = false) :
    scrape ops resolve url false (.ok fetchedHtml) renderOutcome =
      if contentIsJSReliant fetchedHtml then
        scrapeWithPuppeteer ops resolve url renderOutcome
      else
        .ok (extractContent ops resolve (ops.load fetchedHtml) url fetchedHtml) := by
  rw [scrape, if_neg (by simp [hurl]), if_neg (by simp)]
  rfl

theorem scrape_static_error {Doc : Type} (ops : ExtractOps Doc)
    (resolve : String → String → Option String) (url e1 : String)
    (renderOutcome : Except String String)
    (hurl : strStartsWith url "data:" = false) :
    scrape ops resolve url false (.error e1) renderOutcome =
      scrapeWithPuppeteer ops resolve url renderOutcome := by
  rw [scrape, if_neg (by simp [hurl]), if_neg (by simp)]
  rfl

/-- **C3**: when the lightweight fetch succeeds, `scrape` scans the fetched
raw markup case-insensitively for the fixed JS-dependency keyword list; on
a match it returns the render tier's result instead of the lightweight one,
and with no match it returns the lightweight result. -/
theorem C3_js_heuristic {Doc : Type} (ops : ExtractOps Doc)
    (resolve : String → String → Option String) (url fetchedHtml : String)
    (renderOutcome : Except String String)
    (hurl : strStartsWith url "data:" = false) :
    (contentIsJSReliant fetchedHtml = true →
      scrape ops resolve url false (.ok fetchedHtml) renderOutcome =
        scrapeWithPuppeteer ops resolve url renderOutcome) ∧
    (contentIsJSReliant fetchedHtml = false →
      scrape ops resolve url false (.ok fetchedHtml) renderOutcome =
        .ok (extractContent ops resolve (ops.load fetchedHtml) url fetchedHtml)) ∧
    contentIsJSReliant fetchedHtml =
      jsRequiredKeywords.any (fun keyword =>
        containsStr (strToLower fetchedHtml) (strToLower keyword)) := by
  refine ⟨?_, ?_, rfl⟩
  · intro hjs
    rw [scrape_static_ok ops resolve url fetchedHtml renderOutcome hurl,
      if_pos (by rw [hjs])]
  · intro hjs
    rw [scrape_static_ok ops resolve url fetchedHtml renderOutcome hurl,
      if_neg (by rw [hjs]; exact Bool.false_ne_true)]

/-- Witness for C3 at concrete markup containing "Please enable
JavaScript": the pipeline's chosen result is the render tier's. -/
theorem C3_witness :
    scrape unitOps unitResolve "http://a" false
        (.ok "<body>Please enable JavaScript</body>")
        (.ok "<p>rendered</p>") =
      scrapeWithPuppeteer unitOps unitResolve "http://a"
        (.ok "<p>rendered</p>") :=
  (C3_js_heuristic unitOps unitResolve "http://a"
    "<body>Please enable JavaScript</body>" (.ok "<p>rendered</p>")
    (by decide)).1 (by decide)

/-- **C1 counterexample**: at a concrete address where the lightweight
fetch fails with `STATIC_FAIL` and the render tier fails with
`RENDER_FAIL`, the surfaced error message is only the wrapped render-tier
message — it does not contain the lightweight-fetch failure message, so the
error does not carry both underlying messages as claimed. -/
theorem C1_counterexample :
    scrape unitOps unitResolve "http://example.com" false
        (.error "STATIC_FAIL") (.error "RENDER_FAIL") =
      .error ("Puppeteer爬取失败: " ++ "RENDER_FAIL") ∧
    containsStr ("Puppeteer爬取失败: " ++ "RENDER_FAIL") "STATIC_FAIL" = false := by
  refine ⟨?_, by decide⟩
  rfl

/-- **C1 amended**: when the lightweight fetch fails (network error,
timeout, or non-2xx) and the render tier subsequently also fails, the
scrape fails with an error whose message is the render-tier failure message
wrapped in the fixed `Puppeteer爬取失败:` prefix; the lightweight-fetch
failure message is only logged to the console, not carried in the surfaced
error. -/
theorem C1_both_tiers_fail {Doc : Type} (ops : ExtractOps Doc)
    (resolve : String → String → Option String) (url e1 e2 : String)
    (hurl : strStartsWith url "data:" = false) :
    scrape ops resolve url false (.error e1) (.error e2) =
      .error ("Puppeteer爬取失败: " ++ e2) ∧
    containsStr ("Puppeteer爬取失败: " ++ e2) e2 = true := by
  constructor
  · rw [scrape_static_error ops resolve url e1 (.error e2) hurl]
    rfl
  · have hinf : e2.data <:+: ("Puppeteer爬取失败: " ++ e2).data := by
      rw [String.data_append]
      exact (List.suffix_append _ _).isInfix
    rw [containsStr]
    exact decide_eq_true hinf

/-- Witness for the amended C1 at a concrete address and failure pair. -/
theorem C1_witness :
    scrape unitOps unitResolve "http://b" false (.error "x") (.error "y") =
      .error ("Puppeteer爬取失败: " ++ "y") ∧
    containsStr ("Puppeteer爬取失败: " ++ "y") "y" = true :=
  C1_both_tiers_fail unitOps unitResolve "http://b" "x" "y" (by decide)

end WebScraperMCP
